import Mathlib

/-!
Verification model of the Study-Assistant pipeline (`app.py`).

Text is modelled as `List Char` (`Str`), with Python-faithful semantics for
`str.strip`, `str.splitlines`, `str.split(sep)` and `str.split(sep, 1)`.
The mindmap graph is modelled as a finite node set plus a finite set of
undirected edges (`Sym2`), matching `networkx.Graph` semantics (nodes keyed
by label, duplicate edges merged, self-loops allowed).
-/

/-- Text, modelled as a list of characters (Python `str`). -/
abbrev Str := List Char

/-- Characters removed by Python `str.strip()` (ASCII whitespace). -/
def pyIsSpace (c : Char) : Bool :=
  c = ' ' || c = '\t' || c = '\n' || c = '\x0d' || c = '\x0b' || c = '\x0c'

/-- Python `str.lstrip()`. -/
def lstrip (s : Str) : Str := s.dropWhile pyIsSpace

/-- Python `str.rstrip()`. -/
def rstrip (s : Str) : Str := (s.reverse.dropWhile pyIsSpace).reverse

/-- Python `str.strip()`. -/
def strip (s : Str) : Str := lstrip (rstrip s)

/-- Worker for `splitlines`: `acc` holds the current (reversed) line.
At end of input the pending line is emitted only if non-empty, so that
`"".splitlines() = []` while `"a".splitlines() = ["a"]`. -/
def splitlinesAux : Str → Str → List Str
  | [], acc => if acc.isEmpty then [] else [acc.reverse]
  | '\n' :: rest, acc => acc.reverse :: splitlinesAux rest []
  | '\x0d' :: '\n' :: rest, acc => acc.reverse :: splitlinesAux rest []
  | '\x0d' :: rest, acc => acc.reverse :: splitlinesAux rest []
  | c :: rest, acc => splitlinesAux rest (c :: acc)

/-- Python `str.splitlines()` (line boundaries `\n`, `\r`, `\r\n`). -/
def splitlines (s : Str) : List Str := splitlinesAux s []

/-- Worker for `splitOn`. -/
def splitOnAux (sep : Char) : Str → Str → List Str
  | [], acc => [acc.reverse]
  | c :: rest, acc =>
    if c = sep then acc.reverse :: splitOnAux sep rest []
    else splitOnAux sep rest (c :: acc)

/-- Python `str.split(sep)` for a one-character separator:
always returns at least one piece; `"".split(",") = [""]`. -/
def splitOn (sep : Char) (s : Str) : List Str := splitOnAux sep s []

/-- Python `str.split(sep, 1)` for a one-character separator, as the pair
(text before the first `sep`, text after it).  Only used on strings that
contain `sep`; on a string without `sep` it returns `(s, [])`. -/
def splitFirst (sep : Char) : Str → Str × Str
  | [] => ([], [])
  | c :: rest =>
    if c = sep then ([], rest)
    else
      let p := splitFirst sep rest
      (c :: p.1, p.2)

/-- Python `sep.join(pieces)`. -/
def pyJoin (sep : Str) : List Str → Str
  | [] => []
  | [x] => x
  | x :: y :: rest => x ++ sep ++ pyJoin sep (y :: rest)

/-!
## Mindmap graph model (`networkx.Graph`)

Nodes are keyed by their label string; `addEdge` inserts both endpoints and
the undirected edge, so duplicate edges merge and self-loops are allowed.
-/

/-- Undirected graph with string-labelled nodes (model of `nx.Graph`). -/
structure MindGraph where
  nodes : Finset Str
  edges : Finset (Sym2 Str)
deriving DecidableEq

/-- `G.add_edge(u, v)`: inserts both endpoints and the undirected edge. -/
def addEdge (G : MindGraph) (u v : Str) : MindGraph :=
  ⟨insert u (insert v G.nodes), insert s(u, v) G.edges⟩

/-- The synthetic root label `"Central Topic"` of `draw_mindmap_from_outline`. -/
def mindmapRoot : Str := "Central Topic".data

/-- `parent.strip()` for a line split as `line.split(":", 1)`. -/
def lineParent (line : Str) : Str := strip (splitFirst ':' line).1

/-- The surviving children of a `parent: a, b, c` line:
`[x.strip() for x in subs.split(",") if x.strip()]`.
(Filtering on `x.strip()` before stripping equals stripping then
dropping empties, since the test is on the stripped token.) -/
def lineChildren (line : Str) : List Str :=
  ((splitOn ',' (splitFirst ':' line).2).map strip).filter (fun x => x ≠ [])

/-- The loop body of `draw_mindmap_from_outline` for one raw line. -/
def processLine (G : MindGraph) (rawLine : Str) : MindGraph :=
  let line := strip rawLine
  if ':' ∈ line then
    addEdge ((lineChildren line).foldl (fun g c => addEdge g (lineParent line) c) G)
      mindmapRoot (lineParent line)
  else
    addEdge G mindmapRoot line

/-- Graph built by `draw_mindmap_from_outline(outline_text)`: start from the
root node, then process each line of `outline_text.splitlines()`. -/
def draw_mindmap_from_outline (outline_text : Str) : MindGraph :=
  (splitlines outline_text).foldl processLine ⟨{mindmapRoot}, ∅⟩

/-- The fixed layout seed passed to `nx.spring_layout(G, seed=42)`. -/
def mindmapSeed : Nat := 42

/-- Rendering the mindmap image: the layout algorithm (`nx.spring_layout`
plus rasterisation) is an external library modelled as a function of the
graph and the seed; the render applies it to the parsed graph with the
fixed seed. -/
def renderMindmap {Pos : Type} (layout : MindGraph → Nat → Pos)
    (outline_text : Str) : Pos :=
  layout (draw_mindmap_from_outline outline_text) mindmapSeed

/-!
## PDF extraction (`extract_text_from_pdf`)

A PDF is modelled by the page texts `PdfReader` yields (each
`page.extract_text()` result, possibly empty) plus an optional exception
raised during reading/extraction.
-/

/-- Model of the source document as seen by `PyPDF2`. -/
structure Pdf where
  pages : List Str
  readError : Option Str
deriving DecidableEq

/-- `extract_text_from_pdf`: concatenate truthy page texts each followed by
`"\n"`, then `strip()`; an exception yields the error string instead. -/
def extract_text_from_pdf (f : Pdf) : Str :=
  match f.readError with
  | some e => "Error extracting PDF: ".data ++ e
  | none =>
    strip (f.pages.foldl (fun text p => if p ≠ [] then text ++ p ++ ['\n'] else text) [])

/-!
## Generation capability (`groq_chat` and its callers)

`API_KEY` is `os.getenv("GROQ_API_KEY")` (`none` when unset); `not API_KEY`
is also true for an empty string.  The provider behind the HTTP call is an
external collaborator, modelled as a function from the two prompts to
either a completion or an error message (the `str(e)` of the exception).
-/

/-- Environment of the generation capability: the credential and the
opaque provider. -/
structure Env where
  apiKey : Option Str
  provider : Str → Str → Except Str Str

/-- Python truthiness test `not API_KEY`. -/
def keyFalsy : Option Str → Bool
  | none => true
  | some s => s.isEmpty

/-- The capability-unavailable text returned when the credential is absent. -/
def noKeyMsg : Str := "GROQ_API_KEY not set!".data

/-- `groq_chat(system_prompt, user_prompt)`. -/
def groq_chat (env : Env) (system_prompt user_prompt : Str) : Str :=
  if keyFalsy env.apiKey then noKeyMsg
  else
    match env.provider system_prompt user_prompt with
    | Except.ok content => content
    | Except.error e => "LLM Error: ".data ++ e

/-- `summarize_text(text)`. -/
def summarize_text (env : Env) (text : Str) : Str :=
  groq_chat env "Summarize concisely with bullets.".data ("Summarize:\n".data ++ text)

/-- Default MCQ count (`n=5` in `generate_mcqs`). -/
def mcqDefaultCount : Nat := 5

/-- `generate_mcqs(text, n)`. -/
def generate_mcqs (env : Env) (text : Str) (n : Nat) : Str :=
  groq_chat env "Create MCQs.".data
    ("Generate ".data ++ (toString n).data ++ " MCQs with answers:\n".data ++ text)

/-- Default study-plan span (`days=7` in `generate_study_plan`). -/
def planDefaultDays : Nat := 7

/-- `generate_study_plan(summary, days)`. -/
def generate_study_plan (env : Env) (summary : Str) (days : Nat) : Str :=
  groq_chat env "Create a study plan.".data
    ("Create ".data ++ (toString days).data ++ "-day plan:\n".data ++ summary)

/-- `generate_mindmap_outline(text)`. -/
def generate_mindmap_outline (env : Env) (text : Str) : Str :=
  groq_chat env "Create hierarchical outline.".data ("Outline:\n".data ++ text)

/-!
## Artifact renderers
-/

/-- `create_flashcards_pdf(mcq_text)`: one wrapped block per line of
`mcq_text.splitlines()`, in order, appended to one paginated document
(the `FPDF` page-flow and the fixed output filename are library I/O). -/
def create_flashcards_pdf (mcq_text : Str) : List Str :=
  splitlines mcq_text

/-- One slide of the deck built by `summary_to_pptx`. -/
structure Slide where
  title : Str
  bullets : List Str
deriving DecidableEq

/-- Chunks of at most 6 elements, in order (`bullets[i:i+6]` for
`i in range(0, len(bullets), 6)`). -/
def chunk6 : List Str → List (List Str)
  | [] => []
  | a :: b :: c :: d :: e :: f :: rest => [a, b, c, d, e, f] :: chunk6 rest
  | l => [l]

/-- `summary_to_pptx(summary_text)`: strip each line, keep the truthy ones,
one slide titled `"Summary"` per group of at most 6 bullets. -/
def summary_to_pptx (summary_text : Str) : List Slide :=
  let bullets := ((splitlines summary_text).map strip).filter (fun l => l ≠ [])
  (chunk6 bullets).map (fun c => ⟨"Summary".data, c⟩)

/-!
## Memory store and pipeline
-/

/-- `notes_memory`: mapping from student id to the latest extracted notes. -/
def Mem : Type := Str → Option Str

/-- Dictionary assignment `notes_memory[student_id] = notes`. -/
def memPut (m : Mem) (student_id notes : Str) : Mem :=
  fun u => if u = student_id then some notes else m u

/-- The seven artifacts returned by `full_pipeline`. -/
structure PipelineOut where
  summary : Str
  mcqs : Str
  plan : Str
  outline : Str
  mindmap_img : MindGraph
  flash_pdf : List Str
  pptx_file : List Slide

/-- `full_pipeline(pdf_file, student_id)`: the update of `notes_memory`
plus the seven returned artifacts. -/
def full_pipeline (env : Env) (mem : Mem) (pdf_file : Pdf) (student_id : Str) :
    Mem × PipelineOut :=
  let notes := extract_text_from_pdf pdf_file
  let mem2 := memPut mem student_id notes
  let summary := summarize_text env notes
  let mcqs := generate_mcqs env summary mcqDefaultCount
  let plan := generate_study_plan env summary planDefaultDays
  let outline := generate_mindmap_outline env summary
  let mindmap_img := draw_mindmap_from_outline outline
  let flash_pdf := create_flashcards_pdf mcqs
  let pptx_file := summary_to_pptx summary
  (mem2, ⟨summary, mcqs, plan, outline, mindmap_img, flash_pdf, pptx_file⟩)

/-- Environment with the credential unset, and a provider that always
fails (never reached once the key test short-circuits). -/
def envNoKey : Env := ⟨none, fun _ _ => Except.error []⟩

/-- The empty memory store. -/
def memEmpty : Mem := fun _ => none

/-!
## Helper lemmas
-/

theorem rstrip_append_newline (s : Str) : rstrip (s ++ ['\n']) = rstrip s := by
  simp [rstrip, List.dropWhile, pyIsSpace]

theorem strip_append_newline (s : Str) : strip (s ++ ['\n']) = strip s := by
  simp [strip, rstrip_append_newline]

/-- The extraction loop, rewritten as a right fold over the truthy pages:
each kept page contributes its text plus a trailing newline. -/
theorem extract_foldl_eq (pages : List Str) (text : Str) :
    pages.foldl (fun t p => if p ≠ [] then t ++ p ++ ['\n'] else t) text =
      text ++ (pages.filter (fun p => p ≠ [])).foldr (fun p acc => p ++ '\n' :: acc) [] := by
  induction pages generalizing text with
  | nil => simp
  | cons p ps ih =>
    by_cases hp : p = []
    · subst hp; simpa using ih text
    · simp only [List.foldl_cons, if_pos (by simpa using hp), List.filter_cons,
        decide_eq_true_eq]
      rw [ih]
      simp

/-- Joining with a trailing newline per piece is `"\n".join` plus one final
newline, for a non-empty list of pieces. -/
theorem foldr_newline_eq_pyJoin (l : List Str) (h : l ≠ []) :
    l.foldr (fun p acc => p ++ '\n' :: acc) [] = pyJoin ['\n'] l ++ ['\n'] := by
  induction l with
  | nil => exact absurd rfl h
  | cons x rest ih =>
    cases rest with
    | nil => simp [pyJoin]
    | cons y rest2 =>
      simp only [List.foldr_cons] at ih ⊢
      rw [ih (by simp), pyJoin]
      simp

theorem addEdge_edges (G : MindGraph) (u v : Str) :
    (addEdge G u v).edges = insert s(u, v) G.edges := rfl

theorem processLine_noSep (G : MindGraph) (rl : Str) (h : ':' ∉ strip rl) :
    processLine G rl = addEdge G mindmapRoot (strip rl) := by
  simp [processLine, h]

theorem foldl_addEdge_edges (cs : List Str) (G : MindGraph) (p : Str) :
    (cs.foldl (fun g c => addEdge g p c) G).edges =
      G.edges ∪ (cs.map (fun c => s(p, c))).toFinset := by
  induction cs generalizing G with
  | nil => simp
  | cons c cs ih =>
    simp only [List.foldl_cons, List.map_cons, List.toFinset_cons]
    rw [ih, addEdge_edges, Finset.insert_union, Finset.union_insert]

theorem processLine_sep_edges (G : MindGraph) (rl : Str) (h : ':' ∈ strip rl) :
    (processLine G rl).edges =
      insert s(mindmapRoot, lineParent (strip rl))
        (G.edges ∪ ((lineChildren (strip rl)).map
          (fun c => s(lineParent (strip rl), c))).toFinset) := by
  simp only [processLine, if_pos h, addEdge_edges, foldl_addEdge_edges]

theorem foldl_processLine_noSep_edges (lines : List Str) (G : MindGraph)
    (h : ∀ l ∈ lines, ':' ∉ strip l) :
    (lines.foldl processLine G).edges =
      G.edges ∪ (lines.map (fun l => s(mindmapRoot, strip l))).toFinset := by
  induction lines generalizing G with
  | nil => simp
  | cons l ls ih =>
    simp only [List.foldl_cons, List.map_cons, List.toFinset_cons]
    rw [processLine_noSep G l (h l (by simp)), ih _ (fun x hx => h x (by simp [hx])),
      addEdge_edges, Finset.insert_union, Finset.union_insert]

theorem edges_subset_processLine (G : MindGraph) (l : Str) :
    G.edges ⊆ (processLine G l).edges := by
  by_cases h : ':' ∈ strip l
  · rw [processLine_sep_edges G l h]
    exact (Finset.subset_union_left).trans (Finset.subset_insert _ _)
  · rw [processLine_noSep G l h, addEdge_edges]
    exact Finset.subset_insert _ _

theorem edges_subset_foldl_processLine (lines : List Str) (G : MindGraph) :
    G.edges ⊆ (lines.foldl processLine G).edges := by
  induction lines generalizing G with
  | nil => exact Finset.Subset.refl _
  | cons l ls ih => exact (edges_subset_processLine G l).trans (ih _)

theorem foldl_processLine_edges_nonempty (lines : List Str) (G : MindGraph)
    (h : lines ≠ []) : (lines.foldl processLine G).edges.Nonempty := by
  cases lines with
  | nil => exact absurd rfl h
  | cons l ls =>
    have h1 : (processLine G l).edges.Nonempty := by
      by_cases hc : ':' ∈ strip l
      · rw [processLine_sep_edges G l hc]; exact Finset.insert_nonempty _ _
      · rw [processLine_noSep G l hc, addEdge_edges]; exact Finset.insert_nonempty _ _
    obtain ⟨e, he⟩ := h1
    exact ⟨e, edges_subset_foldl_processLine ls _ (by simpa using he)⟩

theorem splitlinesAux_ne_nil (s acc : Str) (h : s ≠ [] ∨ acc ≠ []) :
    splitlinesAux s acc ≠ [] := by
  induction s generalizing acc with
  | nil =>
    rcases h with h | h
    · exact absurd rfl h
    · simp [splitlinesAux, h]
  | cons c rest ih =>
    by_cases h1 : c = '\n'
    · subst h1; simp [splitlinesAux]
    · by_cases h2 : c = '\x0d'
      · subst h2
        cases rest with
        | nil => simp [splitlinesAux]
        | cons c2 rest2 =>
          by_cases h3 : c2 = '\n'
          · subst h3; simp [splitlinesAux]
          · simp [splitlinesAux, h3]
      · rw [show splitlinesAux (c :: rest) acc = splitlinesAux rest (c :: acc) by
          simp [splitlinesAux, h1, h2]]
        exact ih _ (Or.inr (by simp))

theorem splitlines_ne_nil (s : Str) (h : s ≠ []) : splitlines s ≠ [] :=
  splitlinesAux_ne_nil s [] (Or.inl h)

theorem chunk6_length (l : List Str) : (chunk6 l).length = (l.length + 5) / 6 := by
  induction l using chunk6.induct with
  | case1 => simp [chunk6]
  | case2 a b c d e f rest ih =>
    simp only [chunk6, List.length_cons, ih]
    omega
  | case3 l h1 h2 =>
    rcases l with _ | ⟨a, _ | ⟨b, _ | ⟨c, _ | ⟨d, _ | ⟨e, _ | ⟨f, rest⟩⟩⟩⟩⟩⟩
    · exact absurd rfl h1
    · simp [chunk6]
    · simp [chunk6]
    · simp [chunk6]
    · simp [chunk6]
    · simp [chunk6]
    · exact absurd rfl (h2 a b c d e f rest)

theorem chunk6_join (l : List Str) : (chunk6 l).flatten = l := by
  induction l using chunk6.induct with
  | case1 => simp [chunk6]
  | case2 a b c d e f rest ih => simp [chunk6, ih]
  | case3 l h1 h2 =>
    rcases l with _ | ⟨a, _ | ⟨b, _ | ⟨c, _ | ⟨d, _ | ⟨e, _ | ⟨f, rest⟩⟩⟩⟩⟩⟩
    · exact absurd rfl h1
    · simp [chunk6]
    · simp [chunk6]
    · simp [chunk6]
    · simp [chunk6]
    · simp [chunk6]
    · exact absurd rfl (h2 a b c d e f rest)

theorem mem_chunk6_length_le (l : List Str) (c : List Str) (h : c ∈ chunk6 l) :
    c.length ≤ 6 := by
  induction l using chunk6.induct with
  | case1 => simp [chunk6] at h
  | case2 a b c2 d e f rest ih =>
    rw [chunk6] at h
    rcases List.mem_cons.mp h with h | h
    · subst h; simp
    · exact ih h
  | case3 l h1 h2 =>
    rcases l with _ | ⟨a, _ | ⟨b, _ | ⟨c2, _ | ⟨d, _ | ⟨e, _ | ⟨f, rest⟩⟩⟩⟩⟩⟩
    · exact absurd rfl h1
    · simp [chunk6] at h; simp [h]
    · simp [chunk6] at h; simp [h]
    · simp [chunk6] at h; simp [h]
    · simp [chunk6] at h; simp [h]
    · simp [chunk6] at h; simp [h]
    · exact absurd rfl (h2 a b c2 d e f rest)

theorem splitlinesAux_sepFree_append (b : Str) (hb : '\n' ∉ b ∧ '\x0d' ∉ b)
    (s acc : Str) : splitlinesAux (b ++ s) acc = splitlinesAux s (b.reverse ++ acc) := by
  induction b generalizing acc with
  | nil => simp
  | cons c b2 ih =>
    have hc1 : c ≠ '\n' := fun hc => hb.1 (by simp [hc])
    have hc2 : c ≠ '\x0d' := fun hc => hb.2 (by simp [hc])
    rw [List.cons_append,
      show splitlinesAux (c :: (b2 ++ s)) acc = splitlinesAux (b2 ++ s) (c :: acc) by
        simp [splitlinesAux, hc1, hc2],
      ih ⟨fun hm => hb.1 (by simp [hm]), fun hm => hb.2 (by simp [hm])⟩]
    simp

/-- Splitting the newline-join of non-empty, separator-free lines recovers
exactly those lines. -/
theorem splitlines_pyJoin (l : List Str)
    (h : ∀ b ∈ l, b ≠ [] ∧ '\n' ∉ b ∧ '\x0d' ∉ b) :
    splitlines (pyJoin ['\n'] l) = l := by
  induction l with
  | nil => rfl
  | cons x rest ih =>
    have hx := h x (by simp)
    cases rest with
    | nil =>
      show splitlines x = [x]
      rw [splitlines, show x = x ++ [] by simp,
        splitlinesAux_sepFree_append x ⟨hx.2.1, hx.2.2⟩ [] []]
      simp [splitlinesAux, hx.1]
    | cons y rest2 =>
      rw [show pyJoin ['\n'] (x :: y :: rest2) = x ++ '\n' :: pyJoin ['\n'] (y :: rest2)
          by simp [pyJoin],
        splitlines, splitlinesAux_sepFree_append x ⟨hx.2.1, hx.2.2⟩]
      rw [show ∀ r a, splitlinesAux ('\n' :: r) a = a.reverse :: splitlinesAux r []
          from fun r a => rfl]
      simp only [List.append_nil, List.reverse_reverse]
      rw [show splitlinesAux (pyJoin ['\n'] (y :: rest2)) [] =
          splitlines (pyJoin ['\n'] (y :: rest2)) from rfl,
        ih (fun b hb => h b (by simp [hb]))]

theorem length_filter_map_strip (lines : List Str) :
    ((lines.map strip).filter (fun l => l ≠ [])).length =
      (lines.filter (fun l => strip l ≠ [])).length := by
  induction lines with
  | nil => rfl
  | cons x ls ih =>
    by_cases h : strip x = []
    · simpa [h] using ih
    · simpa [h] using ih

/-!
## Claims
-/

/-- C1: if the generation credential is absent (unset or empty, the Python
truthiness test `not API_KEY`), every generation call — summary, MCQs, plan,
outline — returns the capability-unavailable text `"GROQ_API_KEY not set!"`
instead of failing, and `full_pipeline` is a total function whose seven
artifact slots are all populated: the four generated slots hold that text and
the three rendered slots hold the renders of it. -/
theorem no_credential_degrades_pipeline (env : Env) (h : keyFalsy env.apiKey = true) :
    (∀ (text : Str) (n days : Nat),
      summarize_text env text = noKeyMsg ∧
      generate_mcqs env text n = noKeyMsg ∧
      generate_study_plan env text days = noKeyMsg ∧
      generate_mindmap_outline env text = noKeyMsg) ∧
    ∀ (mem : Mem) (pdf : Pdf) (sid : Str),
      let r := full_pipeline env mem pdf sid
      r.2.summary = noKeyMsg ∧ r.2.mcqs = noKeyMsg ∧ r.2.plan = noKeyMsg ∧
        r.2.outline = noKeyMsg ∧
        r.2.mindmap_img = draw_mindmap_from_outline noKeyMsg ∧
        r.2.flash_pdf = create_flashcards_pdf noKeyMsg ∧
        r.2.pptx_file = summary_to_pptx noKeyMsg ∧
        r.1 = memPut mem sid (extract_text_from_pdf pdf) := by
  have hg : ∀ sp up : Str, groq_chat env sp up = noKeyMsg := by
    intro sp up; simp [groq_chat, h]
  constructor
  · intro text n days
    exact ⟨hg _ _, hg _ _, hg _ _, hg _ _⟩
  · intro mem pdf sid
    refine ⟨?_, ?_, ?_, ?_, ?_, ?_, ?_, ?_⟩ <;>
      simp [full_pipeline, summarize_text, generate_mcqs, generate_study_plan,
        generate_mindmap_outline, hg]

/-- Witness for C1 at a concrete credential-free environment. -/
theorem no_credential_degrades_pipeline_witness :
    summarize_text envNoKey "x".data = noKeyMsg ∧
    (full_pipeline envNoKey memEmpty ⟨["notes".data], none⟩ "s".data).2.mcqs = noKeyMsg ∧
    (full_pipeline envNoKey memEmpty ⟨["notes".data], none⟩ "s".data).2.pptx_file =
      summary_to_pptx noKeyMsg := by
  have h := no_credential_degrades_pipeline envNoKey rfl
  have h2 := h.2 memEmpty ⟨["notes".data], none⟩ "s".data
  exact ⟨(h.1 "x".data 0 0).1, h2.2.1, h2.2.2.2.2.2.2.1⟩

/-- C2 counterexample: the claim "exactly one edge per line of the input"
fails on the outline `"A\nA"`, whose two no-separator lines merge onto a
single `root—A` edge of the `nx.Graph`. -/
theorem one_edge_per_line_counterexample :
    ':' ∉ strip "A".data ∧
    splitlines "A\nA".data = ["A".data, "A".data] ∧
    (draw_mindmap_from_outline "A\nA".data).edges.card = 1 ∧
    (splitlines "A\nA".data).length = 2 := by decide

/-- C2 (amended): for every outline text whose lines all contain no `:`
separator, the edge set of the built graph is exactly the set of
`root—(trimmed line)` edges — one edge per distinct trimmed line — and
every edge is incident to the root node `"Central Topic"`. -/
theorem one_edge_per_distinct_line (t : Str)
    (h : ∀ l ∈ splitlines t, ':' ∉ strip l) :
    (draw_mindmap_from_outline t).edges =
      ((splitlines t).map (fun l => s(mindmapRoot, strip l))).toFinset ∧
    ∀ e ∈ (draw_mindmap_from_outline t).edges, mindmapRoot ∈ e := by
  have he : (draw_mindmap_from_outline t).edges =
      ((splitlines t).map (fun l => s(mindmapRoot, strip l))).toFinset := by
    unfold draw_mindmap_from_outline
    rw [foldl_processLine_noSep_edges _ _ h]
    simp
  refine ⟨he, ?_⟩
  intro e hee
  rw [he, List.mem_toFinset, List.mem_map] at hee
  obtain ⟨a, _, rfl⟩ := hee
  rw [Sym2.mem_iff]
  exact Or.inl rfl

/-- Witness for the amended C2 on a concrete separator-free outline. -/
theorem one_edge_per_distinct_line_witness :
    (draw_mindmap_from_outline "A\nB\nA".data).edges =
      ((splitlines "A\nB\nA".data).map (fun l => s(mindmapRoot, strip l))).toFinset :=
  (one_edge_per_distinct_line "A\nB\nA".data (by decide)).1

/-- C3: a line containing `:` is split at the first `:`; the parent and each
comma token are trimmed, empty tokens are discarded, one `parent—child` edge
is added per surviving child, and a `root—parent` edge is added even with
zero surviving children.  Concretely, `"Math: Algebra, Geometry\nHistory"`
yields exactly the edges root—Math, Math—Algebra, Math—Geometry,
root—History, and the line `":"` yields the empty parent label attached to
the root with zero children. -/
theorem sep_line_edges :
    (∀ (G : MindGraph) (l : Str), ':' ∈ strip l →
      (processLine G l).edges =
        insert s(mindmapRoot, lineParent (strip l))
          (G.edges ∪ ((lineChildren (strip l)).map
            (fun c => s(lineParent (strip l), c))).toFinset)) ∧
    (draw_mindmap_from_outline "Math: Algebra, Geometry\nHistory".data).edges =
      {s(mindmapRoot, "Math".data), s("Math".data, "Algebra".data),
       s("Math".data, "Geometry".data), s(mindmapRoot, "History".data)} ∧
    lineParent (strip ":".data) = [] ∧
    lineChildren (strip ":".data) = [] ∧
    (draw_mindmap_from_outline ":".data).edges = {s(mindmapRoot, [])} :=
  ⟨fun G l h => processLine_sep_edges G l h, by decide, by decide, by decide, by decide⟩

/-- Witness for C3's per-line equation at a concrete separator line. -/
theorem sep_line_edges_witness :
    (processLine ⟨{mindmapRoot}, ∅⟩ "Math: Algebra".data).edges =
      insert s(mindmapRoot, lineParent (strip "Math: Algebra".data))
        ((MindGraph.mk {mindmapRoot} ∅).edges ∪
          ((lineChildren (strip "Math: Algebra".data)).map
            (fun c => s(lineParent (strip "Math: Algebra".data), c))).toFinset) :=
  sep_line_edges.1 ⟨{mindmapRoot}, ∅⟩ "Math: Algebra".data (by decide)

/-- C4: the slide renderer keeps exactly the non-blank lines (as their
trimmed text), groups them in order into chunks of at most 6, and yields
`ceil(N/6)` slides titled `"Summary"` with no blank bullets; zero non-blank
lines (in particular the empty string) yield zero slides. -/
theorem slides_spec (t : Str) :
    let nonblank := ((splitlines t).map strip).filter (fun l => l ≠ [])
    let deck := summary_to_pptx t
    nonblank.length = ((splitlines t).filter (fun l => strip l ≠ [])).length ∧
    deck.length = (nonblank.length + 5) / 6 ∧
    (∀ sl ∈ deck, sl.title = "Summary".data ∧ sl.bullets.length ≤ 6 ∧
      ∀ b ∈ sl.bullets, b ≠ []) ∧
    (deck.map Slide.bullets).flatten = nonblank ∧
    (nonblank.length = 0 → deck = []) ∧
    summary_to_pptx [] = [] := by
  intro nonblank deck
  have hdeck : deck = (chunk6 nonblank).map (fun c => ⟨"Summary".data, c⟩) := rfl
  refine ⟨length_filter_map_strip _, ?_, ?_, ?_, ?_, rfl⟩
  · rw [hdeck, List.length_map, chunk6_length]
  · intro sl hsl
    rw [hdeck, List.mem_map] at hsl
    obtain ⟨c, hc, rfl⟩ := hsl
    refine ⟨rfl, mem_chunk6_length_le _ _ hc, ?_⟩
    intro b hb
    have hbn : b ∈ nonblank := by
      rw [← chunk6_join nonblank]
      exact List.mem_flatten.mpr ⟨c, hc, hb⟩
    exact of_decide_eq_true (List.mem_filter.mp hbn).2
  · rw [hdeck, List.map_map]
    simp only [Function.comp_def]
    simpa using chunk6_join nonblank
  · intro hlen
    rw [hdeck, List.length_eq_zero.mp hlen]
    rfl

/-- Witness for C4: 7 non-blank lines (one blank line dropped) make 2 slides. -/
theorem slides_spec_witness :
    (summary_to_pptx "a\nb\n\nc\nd\ne\nf\ng".data).length = 2 ∧
    summary_to_pptx [] = [] := by
  have h := slides_spec "a\nb\n\nc\nd\ne\nf\ng".data
  exact ⟨h.2.1.trans (by decide), h.2.2.2.2.2⟩

/-- C5: the pipeline's dataflow — notes are extracted from the document and
stored for the student before anything else uses them; the summary is
generated from the notes; MCQs (default count 5), plan (default span 7
days) and outline are each generated from the summary; the mindmap is
rendered from the outline, the flashcards from the questions, the slides
from the summary; all seven artifacts are returned together. -/
theorem pipeline_dataflow (env : Env) (mem : Mem) (pdf : Pdf) (sid : Str) :
    let notes := extract_text_from_pdf pdf
    let r := full_pipeline env mem pdf sid
    r.1 = memPut mem sid notes ∧
    r.2.summary = summarize_text env notes ∧
    r.2.mcqs = generate_mcqs env (summarize_text env notes) mcqDefaultCount ∧
    r.2.plan = generate_study_plan env (summarize_text env notes) planDefaultDays ∧
    r.2.outline = generate_mindmap_outline env (summarize_text env notes) ∧
    r.2.mindmap_img = draw_mindmap_from_outline r.2.outline ∧
    r.2.flash_pdf = create_flashcards_pdf r.2.mcqs ∧
    r.2.pptx_file = summary_to_pptx r.2.summary ∧
    mcqDefaultCount = 5 ∧ planDefaultDays = 7 :=
  ⟨rfl, rfl, rfl, rfl, rfl, rfl, rfl, rfl, rfl, rfl⟩

/-- C6: running the pipeline twice for the same user leaves only the second
document's extracted notes retrievable for that user, and entries for every
other user identifier are unchanged. -/
theorem memory_overwrite (env1 env2 : Env) (mem : Mem) (pdf1 pdf2 : Pdf) (u : Str) :
    let m2 := (full_pipeline env2 (full_pipeline env1 mem pdf1 u).1 pdf2 u).1
    m2 u = some (extract_text_from_pdf pdf2) ∧
    (∀ v, v ≠ u → m2 v = mem v) ∧
    (extract_text_from_pdf pdf1 ≠ extract_text_from_pdf pdf2 →
      m2 u ≠ some (extract_text_from_pdf pdf1)) := by
  refine ⟨?_, ?_, ?_⟩
  · simp [full_pipeline, memPut]
  · intro v hv; simp [full_pipeline, memPut, hv]
  · intro hne h12
    simp [full_pipeline, memPut] at h12
    exact hne h12.symm

/-- Witness for C6 on two concrete documents and users `u`, `v`. -/
theorem memory_overwrite_witness :
    (full_pipeline envNoKey (full_pipeline envNoKey memEmpty ⟨["d1".data], none⟩ "u".data).1
        ⟨["d2".data], none⟩ "u".data).1 "u".data =
      some (extract_text_from_pdf ⟨["d2".data], none⟩) ∧
    (full_pipeline envNoKey (full_pipeline envNoKey memEmpty ⟨["d1".data], none⟩ "u".data).1
        ⟨["d2".data], none⟩ "u".data).1 "v".data = memEmpty "v".data ∧
    (full_pipeline envNoKey (full_pipeline envNoKey memEmpty ⟨["d1".data], none⟩ "u".data).1
        ⟨["d2".data], none⟩ "u".data).1 "u".data ≠
      some (extract_text_from_pdf ⟨["d1".data], none⟩) := by
  have h := memory_overwrite envNoKey envNoKey memEmpty ⟨["d1".data], none⟩ ⟨["d2".data], none⟩
    "u".data
  exact ⟨h.1, h.2.1 "v".data (by decide), h.2.2 (by decide)⟩

/-- C7: with no fault, extraction concatenates the non-empty page texts with
a newline separator and trims the result; a fault during extraction yields
the human-readable error string `"Error extracting PDF: ..."` instead of
propagating. -/
theorem extract_concats_pages (f : Pdf) :
    (∀ e, f.readError = some e →
      extract_text_from_pdf f = "Error extracting PDF: ".data ++ e) ∧
    (f.readError = none →
      extract_text_from_pdf f =
        strip (pyJoin ['\n'] (f.pages.filter (fun p => p ≠ [])))) := by
  constructor
  · intro e he; simp [extract_text_from_pdf, he]
  · intro hn
    simp only [extract_text_from_pdf, hn]
    rw [extract_foldl_eq]
    by_cases hf : f.pages.filter (fun p => p ≠ []) = []
    · simp only [hf]; rfl
    · rw [foldr_newline_eq_pyJoin _ hf]
      simp [strip_append_newline]

/-- Witness for C7: one faulting document and one three-page document with
an empty middle page. -/
theorem extract_concats_pages_witness :
    extract_text_from_pdf ⟨["a".data], some "boom".data⟩ =
      "Error extracting PDF: ".data ++ "boom".data ∧
    extract_text_from_pdf ⟨["p1".data, [], " p2".data], none⟩ =
      strip (pyJoin ['\n']
        (((Pdf.mk ["p1".data, [], " p2".data] none)).pages.filter (fun p => p ≠ []))) :=
  ⟨(extract_concats_pages ⟨["a".data], some "boom".data⟩).1 "boom".data rfl,
   (extract_concats_pages ⟨["p1".data, [], " p2".data], none⟩).2 rfl⟩

/-- C8: the flashcard renderer appends one block per line of the input, in
original order and with blank lines kept (splitting the newline-join of any
non-empty separator-free lines returns exactly those lines, and blank lines
survive as blank blocks); the empty string yields a document with no blocks
rather than an error. -/
theorem flashcards_one_block_per_line :
    (∀ l : List Str, (∀ b ∈ l, b ≠ [] ∧ '\n' ∉ b ∧ '\x0d' ∉ b) →
      create_flashcards_pdf (pyJoin ['\n'] l) = l) ∧
    create_flashcards_pdf [] = [] ∧
    create_flashcards_pdf "\n\nX".data = [[], [], "X".data] :=
  ⟨fun l h => splitlines_pyJoin l h, rfl, by decide⟩

/-- Witness for C8 on two concrete lines. -/
theorem flashcards_one_block_per_line_witness :
    create_flashcards_pdf (pyJoin ['\n'] ["Q1".data, "A1".data]) =
      ["Q1".data, "A1".data] :=
  flashcards_one_block_per_line.1 ["Q1".data, "A1".data] (by decide)

/-- C9: the mindmap render is deterministic — for any layout capability
(a function of the graph and the seed), rendering passes the fixed seed 42,
so two renders of equal outline texts yield equal positions. -/
theorem mindmap_render_deterministic {Pos : Type} (layout : MindGraph → Nat → Pos)
    (t1 t2 : Str) (h : t1 = t2) :
    renderMindmap layout t1 = renderMindmap layout t2 ∧
    renderMindmap layout t1 = layout (draw_mindmap_from_outline t1) 42 := by
  subst h; exact ⟨rfl, rfl⟩

/-- Witness for C9 with the layout that returns its own arguments. -/
theorem mindmap_render_deterministic_witness :
    renderMindmap (fun (g : MindGraph) (n : Nat) => (g, n)) "A".data =
      (draw_mindmap_from_outline "A".data, 42) :=
  (mindmap_render_deterministic (fun g n => (g, n)) "A".data "A".data rfl).2

/-- C10 (implicit): blank lines are not skipped — a line that is empty after
trimming takes the no-separator branch and contributes the edge
`root—""`, so any number of blank lines collapses to that single edge;
the edge set is empty exactly for the empty outline text, which yields
just the root node and no edges. -/
theorem mindmap_blank_lines (t : Str) :
    (∀ (G : MindGraph) (l : Str), strip l = [] →
      processLine G l = addEdge G mindmapRoot []) ∧
    ((splitlines t ≠ [] ∧ ∀ l ∈ splitlines t, strip l = []) →
      (draw_mindmap_from_outline t).edges = {s(mindmapRoot, ([] : Str))}) ∧
    ((draw_mindmap_from_outline t).edges = ∅ ↔ t = []) ∧
    draw_mindmap_from_outline [] = ⟨{mindmapRoot}, ∅⟩ := by
  refine ⟨?_, ?_, ⟨?_, ?_⟩, rfl⟩
  · intro G l hl
    rw [processLine_noSep G l (by rw [hl]; simp), hl]
  · rintro ⟨hne, hblank⟩
    unfold draw_mindmap_from_outline
    rw [foldl_processLine_noSep_edges _ _ (fun l hl => by rw [hblank l hl]; simp)]
    ext e
    simp only [Finset.empty_union, List.mem_toFinset, List.mem_map, Finset.mem_singleton]
    constructor
    · rintro ⟨a, ha, rfl⟩
      rw [hblank a ha]
    · rintro rfl
      obtain ⟨a, ha⟩ := List.exists_mem_of_ne_nil _ hne
      exact ⟨a, ha, by rw [hblank a ha]⟩
  · intro hempty
    by_contra ht
    have h1 := foldl_processLine_edges_nonempty (splitlines t) ⟨{mindmapRoot}, ∅⟩
      (splitlines_ne_nil t ht)
    rw [show (splitlines t).foldl processLine ⟨{mindmapRoot}, ∅⟩ =
      draw_mindmap_from_outline t from rfl, hempty] at h1
    exact Finset.not_nonempty_empty h1
  · rintro rfl
    rfl

/-- Witness for C10 on a text of two blank lines (`"\n "`). -/
theorem mindmap_blank_lines_witness :
    (draw_mindmap_from_outline "\n ".data).edges = {s(mindmapRoot, ([] : Str))} ∧
    ((draw_mindmap_from_outline "\n ".data).edges = ∅ ↔ "\n ".data = []) := by
  have h := mindmap_blank_lines "\n ".data
  exact ⟨h.2.1 ⟨by decide, by decide⟩, h.2.2.1⟩
